import Mathlib

/-!
Verification of the StereoWorkbench repository (files
transformed_stereo_cameras.py, WorkbenchUI.py, StereoWorkbench.py).

The development shallowly embeds the data model and the operations of the
program: images become a structure carrying height, width and a pixel
function; the OpenCV helpers used by the source are modelled by their
documented contracts (the rotation matrix formula of getRotationMatrix2D,
the destination-size contract of warpAffine); the worker thread loop of
WorkbenchUI.Worker.run becomes a step function over the list of values the
loop reads from its shared stop flag, producing a trace of events and an
optional uncaught exception.
-/

namespace StereoWorkbench

/-- Image model: a 2-D colour raster, identified by its height, width and a
pixel lookup function (a numpy array of shape (h, w, colors); the colour
axis is kept inside the pixel value). -/
structure Img where
  h : ℕ
  w : ℕ
  px : ℕ → ℕ → ℤ

instance : Inhabited Img := ⟨⟨0, 0, fun _ _ => 0⟩⟩

/-- Default image used to resolve list indexing in the embedding. -/
def dImg : Img := ⟨0, 0, fun _ _ => 0⟩

/-- Affine 2x3 matrix of reals, as produced by cv2.getRotationMatrix2D. -/
structure Mat23 where
  a00 : ℝ
  a01 : ℝ
  a02 : ℝ
  a10 : ℝ
  a11 : ℝ
  a12 : ℝ

/-- Type of the external cv2.warpAffine call: source image, affine matrix,
destination size (width, height).  The cv2 contract is that the result has
exactly the requested destination size; theorems that need this take it as
a hypothesis. -/
def WarpFn : Type := Img → Mat23 → ℕ × ℕ → Img

/-- Documented contract of cv2.warpAffine: the output raster has exactly the
requested destination size (width first, height second). -/
def WarpSizeContract (warp : WarpFn) : Prop :=
  ∀ img M sz, (warp img M sz).w = sz.1 ∧ (warp img M sz).h = sz.2

/-- Python int() conversion on a real value: truncation toward zero. -/
noncomputable def pyInt (x : ℝ) : ℤ :=
  if x < 0 then -⌊-x⌋ else ⌊x⌋

/-- Model of cv2.getRotationMatrix2D(center, angle, scale), per the OpenCV
documentation: alpha = scale * cos(angle in radians), beta = scale * sin
(angle in radians), matrix [[alpha, beta, (1-alpha)*cx - beta*cy],
[-beta, alpha, beta*cx + (1-alpha)*cy]]. -/
noncomputable def getRotationMatrix2D (center : ℝ × ℝ) (angle scale : ℝ) :
    Mat23 :=
  let α := scale * Real.cos (angle * Real.pi / 180)
  let β := scale * Real.sin (angle * Real.pi / 180)
  ⟨α, β, (1 - α) * center.1 - β * center.2,
   -β, α, β * center.1 + (1 - α) * center.2⟩

/-- Size computation of rotate_bound (transformed_stereo_cameras.py lines
40-52): the matrix is taken at the negated angle, cos and sin are the
absolute values of the entries M[0,0] and M[0,1], and the new size is
nW = int(h*sin + w*cos), nH = int(h*cos + w*sin). -/
noncomputable def rotateBoundSize (h w : ℕ) (angle : ℝ) : ℤ × ℤ :=
  let cX : ℕ := w / 2
  let cY : ℕ := h / 2
  let M := getRotationMatrix2D ((cX : ℝ), (cY : ℝ)) (-angle) 1
  let cosv := |M.a00|
  let sinv := |M.a01|
  (pyInt ((h : ℝ) * sinv + (w : ℝ) * cosv),
   pyInt ((h : ℝ) * cosv + (w : ℝ) * sinv))

/-- Model of rotate_bound (transformed_stereo_cameras.py lines 37-59): build
the rotation matrix about the integer centre (w // 2, h // 2) at the negated
angle, compute the expanded bounding size, shift the translation entries by
(nW / 2 - cX) and (nH / 2 - cY) (Python 2 integer divisions), and hand the
image to warpAffine with the new size. -/
noncomputable def rotateBound (warp : WarpFn) (img : Img) (angle : ℝ) :
    Img :=
  let cX : ℕ := img.w / 2
  let cY : ℕ := img.h / 2
  let M := getRotationMatrix2D ((cX : ℝ), (cY : ℝ)) (-angle) 1
  let sz := rotateBoundSize img.h img.w angle
  let M2 : Mat23 :=
    { M with
      a02 := M.a02 + ((sz.1 / 2 - (cX : ℤ) : ℤ) : ℝ),
      a12 := M.a12 + ((sz.2 / 2 - (cY : ℤ) : ℤ) : ℝ) }
  warp img M2 (sz.1.toNat, sz.2.toNat)

/-- Left half of a frame, from get_frames_singleimage (lines 126-128):
frame[:, :width/2, :] with Python 2 floor division. -/
def leftHalf (f : Img) : Img :=
  ⟨f.h, f.w / 2, f.px⟩

/-- Right half of a frame, from get_frames_singleimage (lines 126-129):
frame[:, width/2:, :] with Python 2 floor division. -/
def rightHalf (f : Img) : Img :=
  ⟨f.h, f.w - f.w / 2, fun r c => f.px r (c + f.w / 2)⟩

/-- Model of StereoPair.get_frames (lines 108-119), dual-device mode: for
each capture index the freshly read frame is passed through rotate_bound
with the rotation entry of that index.  The frames argument carries the
values read from the captures; the rot argument carries self.rotation. -/
noncomputable def getFrames (warp : WarpFn) (frames : List Img)
    (rot : List ℤ) : List Img :=
  (List.range frames.length).map
    (fun i => rotateBound warp (frames.getD i dImg) ((rot.getD i 0 : ℤ) : ℝ))

/-- Model of StereoPair.get_frames_singleimage (lines 121-130): the frame is
split in half along the width axis and the two halves are returned.  The
method has the rotation state in scope through self but never reads it, so
the parameter is unused. -/
def getFramesSingle (rot : List ℤ) (f : Img) : List Img :=
  [leftHalf f, rightHalf f]

/-- Horizontal concatenation of two rasters of equal height, used to state
the reconstruction property of the split. -/
def hconcat (a b : Img) : Img :=
  ⟨a.h, a.w + b.w, fun r c => if c < a.w then a.px r c else b.px r (c - a.w)⟩

/-- Concrete warpAffine instance obeying the size contract, used for
witnesses and counterexamples. -/
def warp0 : WarpFn := fun img _ sz => ⟨sz.2, sz.1, img.px⟩

/-- Concrete 1 x 4 frame used in concrete instances. -/
def frame14 : Img := ⟨1, 4, fun _ _ => 0⟩

/-- Concrete 3 x 5 frame used in concrete instances. -/
def img35 : Img := ⟨3, 5, fun _ _ => 0⟩

/-- Decimal digits of a natural number, least significant first, written
with a structural fuel argument so that the kernel can evaluate it. -/
def digitsAux : ℕ → ℕ → List ℕ
  | 0, _ => []
  | fuel + 1, n => if n = 0 then [] else n % 10 :: digitsAux fuel (n / 10)

/-- Decimal digits of n, least significant first. -/
def pyDigits (n : ℕ) : List ℕ := digitsAux n n

/-- Model of the Python str() conversion of a nonnegative integer. -/
def natStr (n : ℕ) : String :=
  if n = 0 then ("0") else (((pyDigits n).reverse.map Nat.digitChar).asString)

/-- Model of Python str.zfill(width): pad on the left with zeros up to the
requested width, leaving the string unchanged when already long enough. -/
def zfill (s : String) (width : ℕ) : String :=
  String.mk (List.replicate (width - s.length) ('0')) ++ s

/-- Model of the os.path join operation for the relative file names this
program builds. -/
def osPathJoin (p f : String) : String :=
  if p = "" then f
  else if p.data.getLast? = some ('/') then p ++ f
  else p ++ ("/") ++ f

/-- Chessboard capture file name (WorkbenchUI.py lines 217-219):
"side_numberstring.png" where numberstring is str(imgNum + 1) zero-filled
to len(str(chessboardCount)). -/
def chessFilename (side : String) (imgNum count : ℕ) : String :=
  side ++ ("_") ++ zfill (natStr (imgNum + 1)) (natStr count).length ++
    (".png")

/-- Events a worker run can emit: a frame-pair acquisition (one get_frames
call), a preview display, an image file write, a capture release, a preview
window destruction. -/
inductive Ev where
  | acquire : Ev
  | showFrames : Ev
  | write : String → Ev
  | releaseCap : ℕ → Ev
  | destroyWin : ℕ → Ev
  deriving DecidableEq, Repr

/-- Python exceptions this code can raise: the ValueError of
verifyPathExists, and the NameError on the undefined name cam in
captureImage. -/
inductive Err where
  | invalidPath : Err
  | nameErrorCam : Err
  deriving DecidableEq, Repr

/-- Result of running a piece of worker code: the trace of events it
emitted, and the uncaught exception that aborted it, if any. -/
abbrev PRes := List Ev × Option Err

/-- Sequencing of two worker computations: if the first one raised, the
exception propagates and the second never runs. -/
def pseq (a : PRes) (b : Unit → PRes) : PRes :=
  match a.2 with
  | some _ => a
  | none => (a.1 ++ (b ()).1, (b ()).2)

/-- Python for-loop over range(n) made of worker computations. -/
def forRange (n : ℕ) (f : ℕ → PRes) : PRes :=
  (List.range n).foldl (fun acc i => pseq acc (fun _ => f i)) ([], none)

/-- One live preview step (Worker.show_frames, which calls
StereoPair.show_frames: a get_frames acquisition then a display). -/
def previewStep : List Ev := [Ev.acquire, Ev.showFrames]

/-- Busy-wait preview: some number of preview steps, standing for the
while time.time() < deadline: self.show_frames() loops.  The count is a
model parameter because it depends on wall-clock time. -/
def pauseEvents (pt : ℕ) : List Ev := (List.replicate pt previewStep).flatten

/-- Model of Worker.verifyPathExists (WorkbenchUI.py lines 223-225): raise
ValueError("Path cannot be empty!") when the path is empty (None and ""
are both modelled by the empty string). -/
def verifyPathExists (path : String) : Option Err :=
  if path = "" then some Err.invalidPath else none

/-- Model of Worker.getImageFilepath (WorkbenchUI.py lines 269-273):
validate the path, then build "Left|Right_timestamp.png" joined to the
directory.  The timestamp is a model parameter. -/
def getImageFilepath (path ts : String) (cam : ℕ) : Except Err String :=
  match verifyPathExists path with
  | some e => Except.error e
  | none =>
      Except.ok (osPathJoin path
        ((["Left", "Right"].getD cam ("")) ++ ("_") ++ ts ++ (".png")))

/-- Model of Worker.captureImage (WorkbenchUI.py lines 234-236): first
acquire a frame pair, then evaluate the arguments of cv2.imwrite; the
name cam is not defined in that scope, so a NameError is raised before
getImageFilepath is even called and before any write. -/
def captureImage (isLeft : Bool) : PRes :=
  ([Ev.acquire], some Err.nameErrorCam)

/-- Model of Worker.captureBoth (WorkbenchUI.py lines 230-232): invoke
captureImage for i in [0, 1]; the int 0 is falsy, 1 is truthy. -/
def captureBoth : PRes :=
  pseq (captureImage false) (fun _ => captureImage true)

/-- Model of Worker.captureAndSaveChessboardPair (WorkbenchUI.py lines
204-221): validate the chessboard capture path, then acquire-and-preview
until the chessboard is detected in both frames (the tries parameter is
how many extra attempts the scripted scene needs), then write the left and
the right frame under their zero-filled names. -/
def captureChessPair (path : String) (count tries imgNum : ℕ) : PRes :=
  match verifyPathExists path with
  | some e => ([], some e)
  | none =>
      ((List.replicate (tries + 1) previewStep).flatten ++
        [Ev.write (osPathJoin path (chessFilename ("left") imgNum count)),
         Ev.write (osPathJoin path (chessFilename ("right") imgNum count))],
       none)

/-- One iteration of the chessboard branch of Worker.run (lines 187-191):
capture and save pair number i, then keep previewing for about two
seconds. -/
def chessBody (path : String) (count pt : ℕ) (tf : ℕ → ℕ) (i : ℕ) : PRes :=
  pseq (captureChessPair path count (tf i) i)
    (fun _ => (pauseEvents pt, none))

/-- Chessboard branch of Worker.run (lines 186-192): the for-loop over
range(chessboardCount). -/
def chessBranch (path : String) (count pt : ℕ) (tf : ℕ → ℕ) : PRes :=
  forRange count (chessBody path count pt tf)

/-- Shared mutable configuration of the worker that the claims need. -/
structure WCfg where
  chessboardCount : ℕ
  chessboardCapturePath : String
  imagesPath : String

/-- Model of the while self.running loop of Worker.run (WorkbenchUI.py
lines 184-202).  The readings list holds the successive values the loop
reads from the shared running flag, one per iteration; cc and ie are the
captureChessboards and intervalEnabled flags.  A false reading exits the
loop (kill() emits no events); an uncaught exception from the body ends
the run with that exception. -/
def runLoop (pt : ℕ) (tf : ℕ → ℕ) (cfg : WCfg) :
    List Bool → Bool → Bool → PRes
  | [], _, _ => ([], none)
  | false :: _, _, _ => ([], none)
  | true :: rest, cc, ie =>
      if cc then
        pseq (chessBranch cfg.chessboardCapturePath cfg.chessboardCount pt tf)
          (fun _ => runLoop pt tf cfg rest false ie)
      else if ie then
        pseq (pseq (pauseEvents pt, none) (fun _ => captureBoth))
          (fun _ => runLoop pt tf cfg rest cc ie)
      else
        pseq (previewStep, none) (fun _ => runLoop pt tf cfg rest cc ie)

/-- Model of StereoPair.__exit__ (transformed_stereo_cameras.py lines
99-103) for n captures: release every capture, then destroy the two
preview windows. -/
def stereoExitEvents (n : ℕ) : List Ev :=
  (List.range n).map Ev.releaseCap ++ (List.range 2).map Ev.destroyWin

/-- Trace of a whole session: the worker loop runs, and the enclosing
with-statement scope (StereoWorkbench.py main) then calls __exit__ exactly
once. -/
def sessionTrace (pt : ℕ) (tf : ℕ → ℕ) (cfg : WCfg) (readings : List Bool)
    (cc ie : Bool) (n : ℕ) : List Ev :=
  (runLoop pt tf cfg readings cc ie).1 ++ stereoExitEvents n

/-- File paths written by a trace, in order. -/
def writesOf (evs : List Ev) : List String :=
  evs.filterMap (fun e => match e with | Ev.write p => some p | _ => none)

/-- Events the loop body itself can emit (acquisitions, displays, writes);
release and window destruction events never come from the loop body. -/
def frameEv : Ev → Bool
  | Ev.acquire => true
  | Ev.showFrames => true
  | Ev.write _ => true
  | Ev.releaseCap _ => false
  | Ev.destroyWin _ => false

/-- Address of the single list object created by the class body line
rotation = [0, 0] (transformed_stereo_cameras.py line 75); the class body
runs once, so there is exactly one such object. -/
def classRotAddr : ℕ := 0

/-- Heap mapping addresses to Python list objects holding rotations. -/
def Heap : Type := ℕ → List ℤ

/-- One StereoPair instance: an object identity plus the address its
rotation attribute lookup resolves to.  Since __init__ (lines 77-94) never
assigns self.rotation, the lookup falls through to the class attribute. -/
structure SPInst where
  objId : ℕ
  rotAddr : ℕ

/-- Construct a StereoPair instance: attribute lookup for rotation resolves
to the class-level list object. -/
def mkSPInst (objId : ℕ) : SPInst := ⟨objId, classRotAddr⟩

/-- Heap after the class body ran: the class rotation list is [0, 0]. -/
def initHeap : Heap := fun _ => [0, 0]

/-- Model of StereoPair.set_rotation (lines 105-106): item assignment
self.rotation[0 if isLeft else 1] = rotation mutates the list object in
place; it creates no new instance attribute. -/
def set_rotation (h : Heap) (inst : SPInst) (isLeft : Bool) (r : ℤ) :
    Heap :=
  fun a =>
    if a = inst.rotAddr then
      (h inst.rotAddr).set (if isLeft then 0 else 1) r
    else h a

/-- Rotation list an instance observes through attribute lookup. -/
def rotationOf (h : Heap) (inst : SPInst) : List ℤ := h inst.rotAddr

/-- One cv2.VideoCapture handle. -/
structure Capture where
  device : ℕ
  deriving DecidableEq, Repr

/-- Model of the captures list built by StereoPair.__init__ (lines 84-93):
two handles when the device ids differ, a single handle when they are
equal. -/
def mkCaptures (d0 d1 : ℕ) : List Capture :=
  if d0 ≠ d1 then [⟨d0⟩, ⟨d1⟩] else [⟨d0⟩]

/-- Model of CameraSettings.getCamIndex (WorkbenchUI.py lines 122-123). -/
def getCamIndex (isLeft : Bool) : ℕ := if isLeft then 0 else 1

/-- Enumeration of the chessboard capture file paths the completed run is
expected to produce, pair by pair, following the wording of the
specification; the claim compares the trace of the code against it. -/
def chessNames (path : String) (count : ℕ) : ℕ → List String
  | 0 => []
  | m + 1 =>
      chessNames path count m ++
        [osPathJoin path (chessFilename ("left") m count),
         osPathJoin path (chessFilename ("right") m count)]

/-- Concrete worker configuration with one chessboard pair requested and an
empty chessboard capture directory. -/
def cfg0 : WCfg := ⟨1, "", ("imgs")⟩

/-! Section: Geometry lemmas and claims C1, C3, C7 -/

theorem Img.ext_of (a b : Img) (hh : a.h = b.h) (hw : a.w = b.w)
    (hp : a.px = b.px) : a = b := by
  cases a; cases b; simp_all

theorem warp0_contract : WarpSizeContract warp0 :=
  fun _ _ _ => ⟨rfl, rfl⟩

theorem rotateBoundSize_eq (h w : ℕ) (θ : ℝ) :
    rotateBoundSize h w θ =
      (pyInt ((h : ℝ) * |Real.sin (θ * Real.pi / 180)| +
          (w : ℝ) * |Real.cos (θ * Real.pi / 180)|),
       pyInt ((h : ℝ) * |Real.cos (θ * Real.pi / 180)| +
          (w : ℝ) * |Real.sin (θ * Real.pi / 180)|)) := by
  have e : -θ * Real.pi / 180 = -(θ * Real.pi / 180) := by ring
  simp only [rotateBoundSize, getRotationMatrix2D, one_mul, e,
    Real.cos_neg, Real.sin_neg, abs_neg]

/-- Claim C3: rotate_bound returns an image whose width is
int(h * |sin θ| + w * |cos θ|) and whose height is
int(h * |cos θ| + w * |sin θ|), for every angle θ in degrees, given the
warpAffine size contract. -/
theorem c3_rotate_bound_dims (warp : WarpFn) (hw : WarpSizeContract warp)
    (img : Img) (θ : ℝ) :
    (rotateBound warp img θ).w =
      (pyInt ((img.h : ℝ) * |Real.sin (θ * Real.pi / 180)| +
        (img.w : ℝ) * |Real.cos (θ * Real.pi / 180)|)).toNat ∧
    (rotateBound warp img θ).h =
      (pyInt ((img.h : ℝ) * |Real.cos (θ * Real.pi / 180)| +
        (img.w : ℝ) * |Real.sin (θ * Real.pi / 180)|)).toNat := by
  unfold rotateBound
  refine ⟨?_, ?_⟩
  · rw [(hw img _ _).1, rotateBoundSize_eq]
  · rw [(hw img _ _).2, rotateBoundSize_eq]

/-- Witness for claim C3: with the concrete warp and a 3 x 5 image at angle
0, the output is 5 wide and 3 high. -/
theorem c3_witness :
    (rotateBound warp0 img35 0).w = 5 ∧ (rotateBound warp0 img35 0).h = 3 := by
  have hc := c3_rotate_bound_dims warp0 warp0_contract img35 0
  rcases hc with ⟨h1, h2⟩
  rw [h1, h2]
  norm_num [img35, pyInt, Real.sin_zero, Real.cos_zero]
  exact ⟨rfl, rfl⟩

/-- Claim C1 (amended): in dual-device mode each returned frame has the
current rotation of its camera applied by rotate_bound; in single-device
split-frame mode the two half frames are returned as they are, the
rotation state being ignored. -/
theorem c1_rotation_modes :
    (∀ (warp : WarpFn) (f0 f1 : Img) (r0 r1 : ℤ),
        getFrames warp [f0, f1] [r0, r1] =
          [rotateBound warp f0 ((r0 : ℤ) : ℝ),
           rotateBound warp f1 ((r1 : ℤ) : ℝ)]) ∧
    (∀ (rot rot2 : List ℤ) (f : Img),
        getFramesSingle rot f = [leftHalf f, rightHalf f] ∧
        getFramesSingle rot f = getFramesSingle rot2 f) := by
  exact ⟨fun warp f0 f1 r0 r1 => rfl, fun rot rot2 f => ⟨rfl, rfl⟩⟩

theorem rotateBound_left90_height :
    (rotateBound warp0 (leftHalf frame14) 90).h = 2 := by
  show ((rotateBoundSize 1 2 90).2).toNat = 2
  rw [rotateBoundSize_eq]
  rw [show (90 : ℝ) * Real.pi / 180 = Real.pi / 2 by ring]
  norm_num [Real.cos_pi_div_two, Real.sin_pi_div_two, pyInt]
  rfl

/-- Counterexample for claim C1: in single-device split-frame mode with the
left rotation set to 90 degrees and a 1 x 4 source frame, the returned left
frame is not the rotated left half; the heights 1 and 2 already differ. -/
theorem c1_counterexample :
    getFramesSingle [(90 : ℤ), 0] frame14 ≠
      [rotateBound warp0 (leftHalf frame14) 90,
       rotateBound warp0 (rightHalf frame14) 0] := by
  intro hEq
  have hh : (leftHalf frame14).h = (rotateBound warp0 (leftHalf frame14) 90).h := by
    have hc := congrArg (fun l => (l.headD dImg).h) hEq
    simpa [getFramesSingle] using hc
  rw [rotateBound_left90_height] at hh
  exact absurd hh (by decide)

/-- Claim C7: in single-device mode the left frame has width W / 2, the
right frame has width W - W / 2, and concatenating the two halves along
the width axis reconstructs the source frame. -/
theorem c7_split_reconstruct (rot : List ℤ) (f : Img) :
    ((getFramesSingle rot f).getD 0 dImg).w = f.w / 2 ∧
    ((getFramesSingle rot f).getD 1 dImg).w = f.w - f.w / 2 ∧
    hconcat ((getFramesSingle rot f).getD 0 dImg)
        ((getFramesSingle rot f).getD 1 dImg) = f := by
  refine ⟨rfl, rfl, ?_⟩
  apply Img.ext_of
  · rfl
  · show f.w / 2 + (f.w - f.w / 2) = f.w
    omega
  · funext r c
    show (if c < f.w / 2 then f.px r c else f.px r (c - f.w / 2 + f.w / 2)) =
      f.px r c
    by_cases hc : c < f.w / 2
    · simp [hc]
    · have hcc : c - f.w / 2 + f.w / 2 = c := by omega
      simp [hc, hcc]

/-! Section: Decimal string lemmas -/

theorem digitsAux_eq_digits : ∀ fuel n : ℕ, n ≤ fuel →
    digitsAux fuel n = Nat.digits 10 n := by
  intro fuel
  induction fuel with
  | zero =>
      intro n hn
      have h0 : n = 0 := by omega
      subst h0
      simp [digitsAux, Nat.digits_zero]
  | succ f ih =>
      intro n hn
      by_cases h0 : n = 0
      · subst h0; simp [digitsAux, Nat.digits_zero]
      · rw [digitsAux, if_neg h0, ih (n / 10) (by omega),
          Nat.digits_def' (by norm_num : (1 : ℕ) < 10) (Nat.pos_of_ne_zero h0)]

theorem pyDigits_eq_digits (n : ℕ) : pyDigits n = Nat.digits 10 n :=
  digitsAux_eq_digits n n le_rfl

theorem natStr_length (n : ℕ) (hn : n ≠ 0) :
    (natStr n).length = (Nat.digits 10 n).length := by
  rw [natStr, if_neg hn]
  show ((pyDigits n).reverse.map Nat.digitChar).length = _
  rw [List.length_map, List.length_reverse, pyDigits_eq_digits]

theorem natStr_len_le (k c : ℕ) (hk : k ≠ 0) (hkc : k ≤ c) :
    (natStr k).length ≤ (natStr c).length := by
  have hc : c ≠ 0 := by omega
  rw [natStr_length k hk, natStr_length c hc,
    Nat.digits_len 10 k (by norm_num) hk, Nat.digits_len 10 c (by norm_num) hc]
  exact Nat.succ_le_succ (Nat.log_mono_right hkc)

theorem zfill_length (s : String) (w : ℕ) (h : s.length ≤ w) :
    (zfill s w).length = w := by
  rw [zfill, String.length_append]
  show (List.replicate (w - s.length) '0').length + s.length = w
  rw [List.length_replicate]
  omega

/-! Section: Worker trace lemmas -/

theorem pseq_of_none (a : PRes) (b : Unit → PRes) (h : a.2 = none) :
    pseq a b = (a.1 ++ (b ()).1, (b ()).2) := by
  simp only [pseq, h]

theorem pseq_of_some (a : PRes) (b : Unit → PRes) (e : Err)
    (h : a.2 = some e) : pseq a b = a := by
  simp only [pseq, h]

theorem foldl_pseq_frozen (f : ℕ → PRes) (l : List ℕ) (evs : List Ev)
    (e : Err) :
    l.foldl (fun acc i => pseq acc (fun _ => f i)) (evs, some e) =
      (evs, some e) := by
  induction l with
  | nil => rfl
  | cons x xs ih =>
      rw [List.foldl_cons, pseq_of_some _ _ e rfl]
      exact ih

theorem forRange_succ (n : ℕ) (f : ℕ → PRes) :
    forRange (n + 1) f = pseq (forRange n f) (fun _ => f n) := by
  rw [forRange, List.range_succ, List.foldl_append]
  rfl

theorem writesOf_append (a b : List Ev) :
    writesOf (a ++ b) = writesOf a ++ writesOf b := by
  simp only [writesOf, List.filterMap_append]

theorem writesOf_flatten_replicate (k : ℕ) (l : List Ev)
    (hl : writesOf l = []) :
    writesOf (List.replicate k l).flatten = [] := by
  induction k with
  | zero => rfl
  | succ m ih =>
      rw [List.replicate_succ, List.flatten_cons, writesOf_append, hl, ih]
      rfl

theorem writesOf_pauseEvents (pt : ℕ) : writesOf (pauseEvents pt) = [] :=
  writesOf_flatten_replicate pt previewStep rfl

theorem chessBody_ok (path : String) (hp : ¬path = "") (count pt : ℕ)
    (tf : ℕ → ℕ) (i : ℕ) :
    chessBody path count pt tf i =
      ((List.replicate (tf i + 1) previewStep).flatten ++
        ([Ev.write (osPathJoin path (chessFilename ("left") i count)),
          Ev.write (osPathJoin path (chessFilename ("right") i count))] ++
          pauseEvents pt),
       none) := by
  rw [chessBody, captureChessPair, verifyPathExists, if_neg hp,
    pseq_of_none _ _ rfl]
  simp [List.append_assoc]

theorem chessWrites_aux (path : String) (hp : ¬path = "") (count pt : ℕ)
    (tf : ℕ → ℕ) : ∀ m : ℕ,
    (forRange m (chessBody path count pt tf)).2 = none ∧
    writesOf (forRange m (chessBody path count pt tf)).1 =
      chessNames path count m := by
  intro m
  induction m with
  | zero => exact ⟨rfl, rfl⟩
  | succ k ih =>
      rcases ih with ⟨ihS, ihW⟩
      rw [forRange_succ, pseq_of_none _ _ ihS]
      constructor
      · show (chessBody path count pt tf k).2 = none
        rw [chessBody_ok path hp count pt tf k]
      · show writesOf (_ ++ (chessBody path count pt tf k).1) = _
        rw [writesOf_append, ihW, chessBody_ok path hp count pt tf k]
        show _ ++ writesOf (_ ++ _) = _
        rw [writesOf_append,
          writesOf_flatten_replicate (tf k + 1) previewStep rfl,
          writesOf_append, writesOf_pauseEvents]
        rfl

theorem chessNames_length (path : String) (count : ℕ) : ∀ m : ℕ,
    (chessNames path count m).length = 2 * m := by
  intro m
  induction m with
  | zero => rfl
  | succ k ih =>
      rw [chessNames, List.length_append, ih]
      simp
      omega

/-- Claim C6: a completed chessboard run with a nonempty directory saves
exactly chessboardCount pairs, the pair of index i (1-based) under the
names side_number.png where number is the index zero-filled to exactly the
decimal digit count of chessboardCount. -/
theorem c6_chessboard_run (path : String) (count pt : ℕ) (tf : ℕ → ℕ)
    (hp : path ≠ "") (hc : 1 ≤ count) :
    ((chessBranch path count pt tf).2 = none ∧
     writesOf (chessBranch path count pt tf).1 = chessNames path count count ∧
     (writesOf (chessBranch path count pt tf).1).length = 2 * count) ∧
    (∀ k, 1 ≤ k → k ≤ count →
      chessFilename ("left") (k - 1) count =
        ("left_") ++ zfill (natStr k) (natStr count).length ++ (".png") ∧
      chessFilename ("right") (k - 1) count =
        ("right_") ++ zfill (natStr k) (natStr count).length ++ (".png") ∧
      (zfill (natStr k) (natStr count).length).length =
        (Nat.digits 10 count).length) := by
  have haux := chessWrites_aux path hp count pt tf count
  simp only [chessBranch]
  refine ⟨⟨haux.1, haux.2, ?_⟩, ?_⟩
  · rw [haux.2, chessNames_length]
  · intro k hk1 hkc
    have hk : k - 1 + 1 = k := by omega
    have hlen : (natStr k).length ≤ (natStr count).length :=
      natStr_len_le k count (by omega) hkc
    refine ⟨?_, ?_, ?_⟩
    · rw [chessFilename, hk]
      rfl
    · rw [chessFilename, hk]
      rfl
    · rw [zfill_length _ _ hlen, natStr_length count (by omega)]

/-- Witness for claim C6: with directory d and chessboard count 2 the run
writes exactly d/left_1.png, d/right_1.png, d/left_2.png, d/right_2.png,
and index 1 is padded to the digit width of 2. -/
theorem c6_witness :
    writesOf (chessBranch ("d") 2 0 (fun _ => 0)).1 =
      [("d/left_1.png"), ("d/right_1.png"), ("d/left_2.png"),
       ("d/right_2.png")] ∧
    (zfill (natStr 1) (natStr 2).length).length =
      (Nat.digits 10 2).length := by
  have h := c6_chessboard_run ("d") 2 0 (fun _ => 0) (by decide) (by decide)
  refine ⟨h.1.2.1.trans ?_, (h.2 1 (by decide) (by decide)).2.2⟩
  decide

/-! Section: Worker loop error propagation, claim C2 -/

theorem chessBranch_empty (count pt : ℕ) (tf : ℕ → ℕ) (hc : 1 ≤ count) :
    chessBranch ("") count pt tf = ([], some Err.invalidPath) := by
  obtain ⟨m, rfl⟩ : ∃ m, count = m + 1 := ⟨count - 1, by omega⟩
  have h0 : chessBody ("") (m + 1) pt tf 0 = ([], some Err.invalidPath) := by
    rw [chessBody, captureChessPair, verifyPathExists, if_pos rfl,
      pseq_of_some _ _ Err.invalidPath rfl]
  rw [chessBranch, forRange, List.range_succ_eq_map, List.foldl_cons]
  have hstep :
      pseq (([], none) : PRes)
        (fun _ => chessBody ("") (m + 1) pt tf 0) =
        ([], some Err.invalidPath) := by
    rw [pseq_of_none _ _ rfl]
    simp only [h0]
    rfl
  rw [hstep]
  exact foldl_pseq_frozen _ _ _ _

/-- Claim C2 (amended): a path-validation error raised by a capture
operation inside the worker loop is not caught anywhere in run(): it
terminates the whole worker loop with the ValueError instead of returning
the worker to its previous mode. -/
theorem c2_path_error_kills_loop (pt : ℕ) (tf : ℕ → ℕ) (cfg : WCfg)
    (rest : List Bool) (ie : Bool)
    (hpath : cfg.chessboardCapturePath = "")
    (hc : 1 ≤ cfg.chessboardCount) :
    runLoop pt tf cfg (true :: rest) true ie = ([], some Err.invalidPath) := by
  have hb := chessBranch_empty cfg.chessboardCount pt tf hc
  simp only [runLoop, if_true]
  rw [hpath, hb, pseq_of_some _ _ Err.invalidPath rfl]

/-- Witness for claim C2 (amended): the concrete configuration with an
empty chessboard path and count 1 aborts the loop at the first iteration. -/
theorem c2_witness :
    (cfg0.chessboardCapturePath = "" ∧ 1 ≤ cfg0.chessboardCount) ∧
    runLoop 0 (fun _ => 0) cfg0 [true] true false =
      ([], some Err.invalidPath) :=
  ⟨⟨rfl, by decide⟩,
   c2_path_error_kills_loop 0 (fun _ => 0) cfg0 [] false rfl (by decide)⟩

/-- Counterexample for claim C2: with two pending true readings of the
running flag and an empty chessboard path, the run ends at the first
iteration with the uncaught ValueError; its trace is identical to the run
that had no second iteration at all, so the loop did not keep running. -/
theorem c2_counterexample :
    runLoop 0 (fun _ => 0) cfg0 [true, true] true false =
      ([], some Err.invalidPath) ∧
    runLoop 0 (fun _ => 0) cfg0 [true, true] true false =
      runLoop 0 (fun _ => 0) cfg0 [true] true false := by
  constructor <;> decide

/-! Section: Worker stop and device release, claim C8 -/

theorem frameEv_of_mem_pseq (a : PRes) (b : Unit → PRes) (e : Ev)
    (he : e ∈ (pseq a b).1) : e ∈ a.1 ∨ e ∈ (b ()).1 := by
  rcases h2 : a.2 with _ | err
  · rw [pseq_of_none a b h2] at he
    exact List.mem_append.mp he
  · rw [pseq_of_some a b err h2] at he
    exact Or.inl he

theorem frameEv_previewStep : ∀ e ∈ previewStep, frameEv e = true := by
  decide

theorem frameEv_flatten_replicate (k : ℕ) (l : List Ev)
    (hl : ∀ e ∈ l, frameEv e = true) :
    ∀ e ∈ (List.replicate k l).flatten, frameEv e = true := by
  intro e he
  obtain ⟨t, ht, het⟩ := List.mem_flatten.mp he
  rw [List.eq_of_mem_replicate ht] at het
  exact hl e het

theorem frameEv_captureChessPair (path : String) (count tries imgNum : ℕ) :
    ∀ e ∈ (captureChessPair path count tries imgNum).1, frameEv e = true := by
  intro e he
  rw [captureChessPair] at he
  rcases hv : verifyPathExists path with _ | err
  · rw [hv] at he
    rcases List.mem_append.mp he with h1 | h2
    · exact frameEv_flatten_replicate _ _ frameEv_previewStep e h1
    · simp only [List.mem_cons, List.not_mem_nil, or_false] at h2
      rcases h2 with rfl | rfl <;> rfl
  · rw [hv] at he
    simp at he

theorem frameEv_chessBody (path : String) (count pt : ℕ) (tf : ℕ → ℕ)
    (i : ℕ) : ∀ e ∈ (chessBody path count pt tf i).1, frameEv e = true := by
  intro e he
  rcases frameEv_of_mem_pseq _ _ e he with h1 | h2
  · exact frameEv_captureChessPair path count (tf i) i e h1
  · exact frameEv_flatten_replicate pt previewStep frameEv_previewStep e h2

theorem frameEv_forRange (n : ℕ) (f : ℕ → PRes)
    (hf : ∀ i, ∀ e ∈ (f i).1, frameEv e = true) :
    ∀ e ∈ (forRange n f).1, frameEv e = true := by
  induction n with
  | zero => intro e he; simp [forRange] at he
  | succ k ih =>
      intro e he
      rw [forRange_succ] at he
      rcases frameEv_of_mem_pseq _ _ e he with h1 | h2
      · exact ih e h1
      · exact hf k e h2

theorem frameEv_captureBoth : ∀ e ∈ captureBoth.1, frameEv e = true := by
  decide

theorem frameEv_runLoop (pt : ℕ) (tf : ℕ → ℕ) (cfg : WCfg) :
    ∀ (readings : List Bool) (cc ie : Bool),
      ∀ e ∈ (runLoop pt tf cfg readings cc ie).1, frameEv e = true := by
  intro readings
  induction readings with
  | nil => intro cc ie e he; simp [runLoop] at he
  | cons r rest ih =>
      intro cc ie e he
      cases r with
      | false => simp [runLoop] at he
      | true =>
          rw [runLoop] at he
          by_cases hcc : cc = true
          · rw [if_pos hcc] at he
            rcases frameEv_of_mem_pseq _ _ e he with h1 | h2
            · exact frameEv_forRange _ _
                (frameEv_chessBody cfg.chessboardCapturePath
                  cfg.chessboardCount pt tf) e h1
            · exact ih false ie e h2
          · rw [if_neg hcc] at he
            by_cases hie : ie = true
            · rw [if_pos hie] at he
              rcases frameEv_of_mem_pseq _ _ e he with h1 | h2
              · rcases frameEv_of_mem_pseq _ _ e h1 with h3 | h4
                · exact frameEv_flatten_replicate pt previewStep
                    frameEv_previewStep e h3
                · exact frameEv_captureBoth e h4
              · exact ih cc ie e h2
            · rw [if_neg hie] at he
              rcases frameEv_of_mem_pseq _ _ e he with h1 | h2
              · exact frameEv_previewStep e h1
              · exact ih cc ie e h2

theorem count_releaseCap_runLoop (pt : ℕ) (tf : ℕ → ℕ) (cfg : WCfg)
    (readings : List Bool) (cc ie : Bool) (i : ℕ) :
    (runLoop pt tf cfg readings cc ie).1.count (Ev.releaseCap i) = 0 := by
  rw [List.count_eq_zero]
  intro hmem
  have hfe := frameEv_runLoop pt tf cfg readings cc ie _ hmem
  simp [frameEv] at hfe

/-- Claim C8: appending anything to the readings of the running flag after
an observed false never changes the trace (so no acquisition happens once
the stop flag is observed), and in every session the enclosing scope
releases each of the one or two capture handles exactly once, whatever the
mode flags and readings were. -/
theorem c8_stop_and_release :
    (∀ (pt : ℕ) (tf : ℕ → ℕ) (cfg : WCfg) (xs rest : List Bool)
        (cc ie : Bool),
      runLoop pt tf cfg (xs ++ false :: rest) cc ie =
        runLoop pt tf cfg (xs ++ [false]) cc ie) ∧
    (∀ (pt : ℕ) (tf : ℕ → ℕ) (cfg : WCfg) (readings : List Bool)
        (cc ie : Bool) (n i : ℕ), (n = 1 ∨ n = 2) → i < n →
      (sessionTrace pt tf cfg readings cc ie n).count (Ev.releaseCap i) = 1) := by
  constructor
  · intro pt tf cfg xs
    induction xs with
    | nil => intro rest cc ie; rfl
    | cons x tl ih =>
        intro rest cc ie
        cases x with
        | false => rfl
        | true =>
            show runLoop pt tf cfg (true :: (tl ++ false :: rest)) cc ie =
              runLoop pt tf cfg (true :: (tl ++ [false])) cc ie
            rw [runLoop, runLoop]
            simp only [ih]
  · intro pt tf cfg readings cc ie n i hn hi
    rw [sessionTrace, List.count_append,
      count_releaseCap_runLoop pt tf cfg readings cc ie i]
    rcases hn with rfl | rfl
    · interval_cases i
      decide
    · interval_cases i <;> decide

/-- Witness for claim C8 at a concrete schedule: a true reading followed by
the stop observation, with two captures released. -/
theorem c8_witness :
    (runLoop 0 (fun _ => 0) cfg0 ([true] ++ false :: [true]) false false =
      runLoop 0 (fun _ => 0) cfg0 ([true] ++ [false]) false false) ∧
    ((2 = 1 ∨ 2 = 2) ∧ 0 < 2) ∧
    (sessionTrace 0 (fun _ => 0) cfg0 [true, false] false false 2).count
      (Ev.releaseCap 0) = 1 :=
  ⟨c8_stop_and_release.1 0 (fun _ => 0) cfg0 [true] [true] false false,
   ⟨Or.inr rfl, by decide⟩,
   c8_stop_and_release.2 0 (fun _ => 0) cfg0 [true, false] false false 2 0
     (Or.inr rfl) (by decide)⟩

/-! Section: Capture operations, claims C4 and C5 -/

/-- Claim C4 (code evaluation at the failing input): captureImage acquires
a frame pair and then aborts with the NameError on the undefined name cam,
writing nothing, for either side and any path state; the path validation of
getImageFilepath, which would reject the empty path with the ValueError,
sits behind that NameError and is never reached. -/
theorem c4_name_error (isLeft : Bool) (ts : String) (cam : ℕ) :
    captureImage isLeft = ([Ev.acquire], some Err.nameErrorCam) ∧
    writesOf (captureImage isLeft).1 = [] ∧
    getImageFilepath ("") ts cam = Except.error Err.invalidPath :=
  ⟨rfl, rfl, rfl⟩

/-- Counterexample for claim C5: a dual capture writes no file at all; it
aborts with the NameError raised inside the first captureImage call. -/
theorem c5_counterexample :
    writesOf captureBoth.1 = [] ∧ captureBoth.2 = some Err.nameErrorCam := by
  decide

/-- Claim C5 (amended): captureBoth calls captureImage once per side and
each call performs its own separate frame-pair acquisition; in the current
code the first call aborts with the NameError right after acquiring and
before any write, so the dual capture saves nothing. -/
theorem c5_two_separate_captures :
    captureBoth = pseq (captureImage false) (fun _ => captureImage true) ∧
    (∀ isLeft, captureImage isLeft = ([Ev.acquire], some Err.nameErrorCam)) ∧
    captureBoth = ([Ev.acquire], some Err.nameErrorCam) :=
  ⟨rfl, fun _ => rfl, rfl⟩

/-! Section: Rotation state aliasing, claim C9 -/

/-- Claim C9: the rotation array is the single class-level list object, so
a set_rotation through one instance is observed by every other instance,
and the frame the other instance then rotates for that side uses the new
value. -/
theorem c9_class_level_rotation (h : Heap) (r0 r1 newR : ℤ) (isLeft : Bool)
    (warp : WarpFn) (f0 f1 : Img) (i j : ℕ)
    (hrot : h classRotAddr = [r0, r1]) :
    rotationOf (set_rotation h (mkSPInst i) isLeft newR) (mkSPInst j) =
      (if isLeft then [newR, r1] else [r0, newR]) ∧
    (getFrames warp [f0, f1]
        (rotationOf (set_rotation h (mkSPInst i) isLeft newR)
          (mkSPInst j))).getD (getCamIndex isLeft) dImg =
      rotateBound warp (if isLeft then f0 else f1) ((newR : ℤ) : ℝ) := by
  have hset :
      rotationOf (set_rotation h (mkSPInst i) isLeft newR) (mkSPInst j) =
        (if isLeft then [newR, r1] else [r0, newR]) := by
    simp only [rotationOf, set_rotation, mkSPInst]
    rw [if_pos trivial, hrot]
    cases isLeft <;> rfl
  refine ⟨hset, ?_⟩
  rw [hset]
  cases isLeft <;> rfl

/-- Witness for claim C9: on the initial heap, instance 0 sets the left
rotation to 5 and instance 1 observes it and applies it to the left
frame. -/
theorem c9_witness :
    initHeap classRotAddr = [0, 0] ∧
    rotationOf (set_rotation initHeap (mkSPInst 0) true 5) (mkSPInst 1) =
      [5, 0] ∧
    (getFrames warp0 [frame14, img35]
        (rotationOf (set_rotation initHeap (mkSPInst 0) true 5)
          (mkSPInst 1))).getD (getCamIndex true) dImg =
      rotateBound warp0 frame14 ((5 : ℤ) : ℝ) := by
  have hc := c9_class_level_rotation initHeap 0 0 5 true warp0 frame14
    img35 0 1 rfl
  exact ⟨rfl, hc.1, hc.2⟩

/-! Section: Device duality, claim C10 -/

/-- Claim C10: identical device identifiers produce a single-element
captures list, so the right-camera index 1 used by the settings window is
out of bounds in single-device mode, while distinct identifiers give two
captures and index 1 resolves to the second device. -/
theorem c10_single_device_captures (d d0 d1 : ℕ) :
    ((mkCaptures d d).length = 1 ∧
      (mkCaptures d d)[getCamIndex false]? = none) ∧
    (d0 ≠ d1 →
      (mkCaptures d0 d1).length = 2 ∧
      (mkCaptures d0 d1)[getCamIndex false]? = some ⟨d1⟩) := by
  constructor
  · rw [mkCaptures, if_neg (by simp)]
    exact ⟨rfl, rfl⟩
  · intro hne
    rw [mkCaptures, if_pos hne]
    exact ⟨rfl, rfl⟩

/-- Witness for claim C10 at devices 3, 3 and 3, 4. -/
theorem c10_witness :
    ((mkCaptures 3 3).length = 1 ∧
      (mkCaptures 3 3)[getCamIndex false]? = none) ∧
    ((3 : ℕ) ≠ 4 ∧ (mkCaptures 3 4).length = 2 ∧
      (mkCaptures 3 4)[getCamIndex false]? = some ⟨4⟩) :=
  ⟨(c10_single_device_captures 3 3 4).1,
   ⟨by decide,
    (c10_single_device_captures 3 3 4).2 (by decide)⟩⟩

end StereoWorkbench
